import Mathlib

/-!
Verification of the stream-resolution, caching, aggregation and search core
of src/api_music/main.py (FastAPI music API backed by yt-dlp).

The Python functions are shallowly embedded as pure Lean functions:
the external provider (yt-dlp) is a parameter giving the outcome of each
provider call, time is an explicit Int parameter (minutes), and the module
level dict cache is threaded as an association list.
-/

namespace ApiMusic

/-- A provider delivery format, as consumed by fetch_stream_url
(src/api_music/main.py lines 166-169).  Fields mirror the dictionary keys
read by the code: f.get('acodec'), f.get('vcodec'), x.get('quality', 0),
best_audio['url'].  Absent dictionary keys are modelled as none. -/
structure DeliveryFormat where
  acodec : Option String
  vcodec : Option String
  quality : Option Int
  url : String
deriving DecidableEq

/-- The sort key of line 168: lambda x: x.get('quality', 0). -/
def qualityKey (f : DeliveryFormat) : Int :=
  f.quality.getD 0

/-- Comparison used to embed Python sorted(..., key=..., reverse=True):
a is placed no later than b when the key of a is at least the key of b. -/
def qualityGe (a b : DeliveryFormat) : Prop :=
  qualityKey b ≤ qualityKey a

instance : DecidableRel qualityGe :=
  fun a b => inferInstanceAs (Decidable (qualityKey b ≤ qualityKey a))

/-- Line 167: audio_formats = [f for f in formats if f.get('acodec') != 'none'
and f.get('vcodec') == 'none'].  A missing acodec key yields Python None,
which compares unequal to 'none' and hence passes; a missing vcodec key
yields None, which compares unequal to 'none' and hence fails. -/
def audioFormats (formats : List DeliveryFormat) : List DeliveryFormat :=
  formats.filter fun f => f.acodec != some "none" && f.vcodec == some "none"

/-- Modelled from the spec (section 4.2 and glossary): the spec's
audio-only predicate, "audio_codec is present/non-'none' AND video_codec is
absent/'none'".  Stated only to compare against audioFormats above. -/
def audioOnlySpec (f : DeliveryFormat) : Bool :=
  (match f.acodec with
   | none => false
   | some a => a != "none")
  &&
  (match f.vcodec with
   | none => true
   | some v => v == "none")

/-- Line 168: sorted(audio_formats, key=lambda x: x.get('quality', 0),
reverse=True)[0].  Python's sort is stable, and with reverse=True elements
of equal key keep their original relative order, so the descending stable
sort is insertion sort under qualityGe; the subscript [0] on an empty list
raises IndexError, modelled as none. -/
def selectBest (l : List DeliveryFormat) : Option DeliveryFormat :=
  (List.insertionSort qualityGe l).head?

/-- Reference selector: scans the list once and keeps the first element
whose key is maximal so far.  Used to characterise the head of the stable
descending sort. -/
def firstMax : List DeliveryFormat → Option DeliveryFormat
  | [] => none
  | a :: l =>
    match firstMax l with
    | none => some a
    | some b => if qualityKey b ≤ qualityKey a then some a else some b

/-- Line 57: CACHE_TIMEOUT = timedelta(minutes=30).  Time is modelled in
minutes. -/
def CACHE_TIMEOUT : Int := 30

/-- Line 58: song_cache, a dict from cache key to (value, insertion time),
modelled as an association list read through List.lookup. -/
abbrev Cache := List (String × String × Int)

/-- Line 157: cache_key is the string stream_ followed by the video id. -/
def cacheKey (videoId : String) : String :=
  "stream_" ++ videoId

/-- Lines 158-161: if cache_key in song_cache, read (cached_data, timestamp)
and return cached_data when datetime.now() - timestamp < CACHE_TIMEOUT;
otherwise fall through (the stale entry is not removed). -/
def cacheGet (c : Cache) (k : String) (now : Int) : Option String :=
  match c.lookup k with
  | none => none
  | some (data, ts) => if now - ts < CACHE_TIMEOUT then some data else none

/-- Line 172: song_cache[cache_key] = (stream_url, datetime.now()).
Dict assignment: the key now maps to exactly this pair. -/
def cachePut (c : Cache) (k v : String) (now : Int) : Cache :=
  (k, v, now) :: c.filter fun p => p.1 != k

/-- Outcome of the provider call of lines 164-166: error when
ydl.extract_info raises, ok none when the returned info has no usable
'formats' list (info['formats'] then raises KeyError, caught by the same
except), ok (some fs) when a format list is returned. -/
abbrev ProviderFormats := Except Unit (Option (List DeliveryFormat))

/-- Result of one call to fetch_stream_url: the HTTP-level result (error
status code, or the stream URL), the cache after the call, and how many
provider calls were made (0 or 1) — the last component instruments the
embedding so that "no provider call" is expressible. -/
structure FetchResult where
  result : Except Nat String
  cache : Cache
  providerCalls : Nat

/-- Lines 163-175: the cache-miss body of fetch_stream_url.  Any raise
inside the with-block (provider error, missing formats, IndexError from
[0] on an empty filtered list) is caught and re-raised as
HTTPException(status_code=404); on success the URL is cached under the
key with the current time and returned. -/
def resolveMiss (c : Cache) (now : Int) (p : ProviderFormats) (videoId : String) :
    FetchResult :=
  match p with
  | .error _ => ⟨.error 404, c, 1⟩
  | .ok none => ⟨.error 404, c, 1⟩
  | .ok (some formats) =>
    match selectBest (audioFormats formats) with
    | none => ⟨.error 404, c, 1⟩
    | some best => ⟨.ok best.url, cachePut c (cacheKey videoId) best.url now, 1⟩

/-- Lines 156-175: fetch_stream_url.  On a fresh cache hit the cached URL
is returned with no provider call and the cache untouched; otherwise the
miss body runs. -/
def fetchStreamUrl (c : Cache) (now : Int) (p : ProviderFormats) (videoId : String) :
    FetchResult :=
  match cacheGet c (cacheKey videoId) now with
  | some data => ⟨.ok data, c, 0⟩
  | none => resolveMiss c now p videoId

/-- A raw provider catalog/search entry as read by lines 110-124 and
189-203: the dictionary keys id, title, thumbnail, duration, each possibly
absent.  Durations from the provider are whole seconds. -/
structure Entry where
  id : Option String
  title : Option String
  thumbnail : Option String
  duration : Option Int
deriving DecidableEq

/-- The Song pydantic model of lines 29-34. -/
structure Song where
  title : String
  url : String
  thumbnail : String
  duration : String
  video_id : String
deriving DecidableEq

/-- The SongResponse pydantic model of lines 36-39. -/
structure SongResponse where
  artist_url : String
  artist_name : String
  songs : List Song
deriving DecidableEq

/-- Lines 118-124 and 197-203 (identical in both endpoints): build a Song
from an entry whose extracted video_id is vid.  title falls back to '',
thumbnail to the default-image URL keyed by the id (Python or-chain:
entry.get('thumbnail', '') or default), duration is
str(entry.get('duration', '0')). -/
def mkSong (entry : Entry) (vid : String) : Song :=
  { title := entry.title.getD ""
    url := "https://music.youtube.com/watch?v=" ++ vid
    thumbnail :=
      if entry.thumbnail.getD "" = "" then
        "https://i.ytimg.com/vi/" ++ vid ++ "/default.jpg"
      else entry.thumbnail.getD ""
    duration :=
      match entry.duration with
      | none => "0"
      | some d => toString d
    video_id := vid }

/-- Lines 110-125 and 189-204 (identical loops): iterate the provider
entries; continue past a null entry; continue past an entry whose
entry.get('id', '') is empty; otherwise append the normalized Song. -/
def normalizeEntries : List (Option Entry) → List Song
  | [] => []
  | none :: rest => normalizeEntries rest
  | some entry :: rest =>
    if entry.id.getD "" = "" then normalizeEntries rest
    else mkSong entry (entry.id.getD "") :: normalizeEntries rest

/-- Per-entry view of the loop above: none for a dropped entry, the Song
for a kept one. -/
def entryToSong : Option Entry → Option Song
  | none => none
  | some entry =>
    if entry.id.getD "" = "" then none
    else some (mkSong entry (entry.id.getD ""))

/-- Whether an entry survives the null / missing-id filtering. -/
def isValidEntry : Option Entry → Bool
  | none => false
  | some entry => entry.id.getD "" != ""

/-- Outcome of ydl.extract_info(artist_url) in get_artist_songs
(lines 98-110): err when the call raises (caught at line 132 and the loop
continues), empty when the call returns a falsy result (line 102), ok
otherwise, carrying result.get('channel') and, when the 'entries' key is
present, the entry list. -/
inductive ListResult where
  | err : ListResult
  | empty : ListResult
  | ok : Option String → Option (List (Option Entry)) → ListResult

/-- Lines 107-131: the SongResponse built for one successfully fetched
source: artist name falls back to 'Unknown Artist'; when the result has no
'entries' key the songs list stays empty but the response is still
appended. -/
def mkSongResponse (url : String) (channel : Option String)
    (entries : Option (List (Option Entry))) : SongResponse :=
  { artist_url := url
    artist_name := channel.getD "Unknown Artist"
    songs :=
      match entries with
      | none => []
      | some es => normalizeEntries es }

/-- Lines 95-134: the per-source loop of get_artist_songs over the
configured source locators, with the per-source outcomes given by oc.  A
raising source (err) and a falsy result (empty) both continue to the next
locator and contribute no batch. -/
def getArtistSongsLoop (oc : String → ListResult) : List String → List SongResponse
  | [] => []
  | url :: rest =>
    match oc url with
    | .err => getArtistSongsLoop oc rest
    | .empty => getArtistSongsLoop oc rest
    | .ok channel entries => mkSongResponse url channel entries :: getArtistSongsLoop oc rest

/-- Lines 92-143: the whole get_artist_songs endpoint: run the loop, raise
HTTPException(404) when no responses were gathered, otherwise return
them. -/
def getArtistSongsEndpoint (oc : String → ListResult) (urls : List String) :
    Except Nat (List SongResponse) :=
  let responses := getArtistSongsLoop oc urls
  if responses = [] then .error 404 else .ok responses

/-- Lines 42-54: the configured source locators. -/
def ARTIST_URLS : List String :=
  [ "https://music.youtube.com/channel/UCJls2FMEbRYxi28jcuKe2vA",
    "https://music.youtube.com/channel/UC527A_XB_c7XftocVOIVNeA",
    "https://music.youtube.com/channel/UCRI-Ds5eY70A4oeHggAFBbg",
    "https://music.youtube.com/channel/UCZn4r7heNOPY-C43YIywnVA",
    "https://music.youtube.com/channel/UCn0hl0XZ3bFREX2SCBZK3Pw",
    "https://music.youtube.com/channel/UCYBtTmBP2QgHgalgsv2v5LA",
    "https://music.youtube.com/channel/UCUn9Xjvg8fwqpa58-_XO6zw" ]

/-- Outcome of ydl.extract_info on the bounded query ytsearch10:<query> in search_songs
(lines 181-183): error when the call raises, ok none when the result is
falsy or lacks the 'entries' key (line 185), ok (some entries)
otherwise. -/
abbrev SearchOutcome := Except Unit (Option (List (Option Entry)))

/-- Lines 177-210: search_songs.  A raising provider call becomes
HTTPException(500); a falsy or entryless result returns []; otherwise the
entries are normalized by the shared loop. -/
def searchSongs (r : SearchOutcome) : Except Nat (List Song) :=
  match r with
  | .error _ => .error 500
  | .ok none => .ok []
  | .ok (some entries) => .ok (normalizeEntries entries)

/-- Concrete audio format used by the resolver witnesses. -/
def fmtDemo : DeliveryFormat :=
  ⟨some "opus", some "none", some 5, "https://a.example/s"⟩

/-- Concrete video-only format (audio codec none, video codec present). -/
def videoFmtDemo : DeliveryFormat :=
  ⟨some "mp4a", some "avc1", some 10, "https://a.example/v"⟩

/-- Concrete provider outcome delivering one audio format. -/
def p1Demo : ProviderFormats := Except.ok (some [fmtDemo])

/-- The cache produced by a successful miss resolve of video id vid at time 0. -/
def c1Demo : Cache := cachePut [] (cacheKey "vid") fmtDemo.url 0

/-- Concrete cache holding one entry inserted at time 0. -/
def cacheDemo : Cache := [("stream_x", "u", 0)]

/-- Concrete format list with a quality tie at the maximum: the second
element is the first occurrence of the maximal quality 3. -/
def tieFmts : List DeliveryFormat :=
  [⟨some "opus", some "none", some 1, "u1"⟩,
   ⟨some "opus", some "none", some 3, "u2"⟩,
   ⟨some "opus", some "none", some 3, "u3"⟩,
   ⟨some "opus", some "none", some 2, "u4"⟩]

/-- Concrete search result: three entries, the second lacking an id. -/
def demoSearchEntries : List (Option Entry) :=
  [some ⟨some "a1", some "T1", none, some 100⟩,
   some ⟨none, some "T2", none, some 50⟩,
   some ⟨some "a3", none, some "https://t.example/3.jpg", none⟩]

/-- The normalized first track of demoSearchEntries. -/
def demoSongA : Song := mkSong ⟨some "a1", some "T1", none, some 100⟩ "a1"

/-- The normalized third track of demoSearchEntries (no duration). -/
def demoSongB : Song :=
  mkSong ⟨some "a3", none, some "https://t.example/3.jpg", none⟩ "a3"

/-- Concrete provider assignment for the aggregation witnesses: source s1
succeeds with one entry, source s2 raises, source s3 succeeds with no
entries. -/
def ocDemo : String → ListResult := fun u =>
  if u = "s1" then
    ListResult.ok (some "Artist One") (some [some ⟨some "v1", some "Song One", none, some 200⟩])
  else if u = "s2" then ListResult.err
  else ListResult.ok (some "Artist Three") (some [])

/-- The batch ocDemo yields for source s1. -/
def rDemo : SongResponse :=
  mkSongResponse "s1" (some "Artist One")
    (some [some ⟨some "v1", some "Song One", none, some 200⟩])

/-! Theorems. -/

theorem firstMax_cons_none (a : DeliveryFormat) (t : List DeliveryFormat)
    (hft : firstMax t = none) : firstMax (a :: t) = some a := by
  rw [firstMax, hft]

theorem firstMax_cons_some (a : DeliveryFormat) (t : List DeliveryFormat)
    (c : DeliveryFormat) (hft : firstMax t = some c) :
    firstMax (a :: t) =
      if qualityKey c ≤ qualityKey a then some a else some c := by
  rw [firstMax, hft]

theorem head?_insertionSort (l : List DeliveryFormat) :
    (List.insertionSort qualityGe l).head? = firstMax l := by
  induction l with
  | nil => rfl
  | cons a t ih =>
    rw [List.insertionSort]
    cases hs : List.insertionSort qualityGe t with
    | nil =>
      have ht : t = [] := by
        have hp := List.perm_insertionSort qualityGe t
        rw [hs] at hp
        exact (hp.symm.eq_nil)
      subst ht
      rfl
    | cons b s =>
      have hb : firstMax t = some b := by rw [← ih, hs]; rfl
      rw [firstMax_cons_some a t b hb, List.orderedInsert]
      by_cases h : qualityKey b ≤ qualityKey a
      · rw [if_pos (show qualityGe a b from h), if_pos h]
        rfl
      · rw [if_neg (show ¬qualityGe a b from h), if_neg h]
        rfl

theorem firstMax_eq_none_iff (l : List DeliveryFormat) :
    firstMax l = none ↔ l = [] := by
  cases l with
  | nil => simp [firstMax]
  | cons a t =>
    simp only [firstMax]
    cases firstMax t with
    | none => simp
    | some b =>
      simp only [List.cons_ne_nil, iff_false]
      split <;> simp

theorem firstMax_le (l : List DeliveryFormat) (b : DeliveryFormat)
    (h : firstMax l = some b) : ∀ x ∈ l, qualityKey x ≤ qualityKey b := by
  induction l generalizing b with
  | nil => simp [firstMax] at h
  | cons a t ih =>
    cases hft : firstMax t with
    | none =>
      rw [firstMax_cons_none a t hft] at h
      have ht : t = [] := (firstMax_eq_none_iff t).mp hft
      subst ht
      obtain rfl : a = b := by injection h
      intro x hx
      obtain rfl : x = a := by simpa using hx
      exact le_refl _
    | some c =>
      rw [firstMax_cons_some a t c hft] at h
      by_cases hca : qualityKey c ≤ qualityKey a
      · rw [if_pos hca] at h
        obtain rfl : a = b := by injection h
        intro x hx
        rcases List.mem_cons.mp hx with rfl | hx'
        · exact le_refl _
        · exact le_trans (ih c hft x hx') hca
      · rw [if_neg hca] at h
        obtain rfl : c = b := by injection h
        intro x hx
        rcases List.mem_cons.mp hx with rfl | hx'
        · exact le_of_lt (lt_of_not_le hca)
        · exact ih c hft x hx'

theorem firstMax_first (l : List DeliveryFormat) (b : DeliveryFormat)
    (h : firstMax l = some b) :
    ∃ l₁ l₂, l = l₁ ++ b :: l₂ ∧ ∀ x ∈ l₁, qualityKey x < qualityKey b := by
  induction l generalizing b with
  | nil => simp [firstMax] at h
  | cons a t ih =>
    cases hft : firstMax t with
    | none =>
      rw [firstMax_cons_none a t hft] at h
      obtain rfl : a = b := by injection h
      exact ⟨[], t, rfl, by simp⟩
    | some c =>
      rw [firstMax_cons_some a t c hft] at h
      by_cases hca : qualityKey c ≤ qualityKey a
      · rw [if_pos hca] at h
        obtain rfl : a = b := by injection h
        exact ⟨[], t, rfl, by simp⟩
      · rw [if_neg hca] at h
        obtain rfl : c = b := by injection h
        obtain ⟨t₁, t₂, hsplit, hlt⟩ := ih c hft
        refine ⟨a :: t₁, t₂, by rw [hsplit, List.cons_append], ?_⟩
        intro x hx
        rcases List.mem_cons.mp hx with rfl | hx'
        · exact lt_of_not_le hca
        · exact hlt x hx'

/-- C2: on a non-empty filtered list, the Format Selector picks an entry of
maximal quality key, and among equal maxima the first occurrence in the
list order. -/
theorem C2_selector_max_first (fs : List DeliveryFormat) (h : fs ≠ []) :
    ∃ b, selectBest fs = some b ∧ (∀ x ∈ fs, qualityKey x ≤ qualityKey b) ∧
      ∃ l₁ l₂, fs = l₁ ++ b :: l₂ ∧ ∀ x ∈ l₁, qualityKey x < qualityKey b := by
  obtain ⟨b, hb⟩ : ∃ b, firstMax fs = some b := by
    cases hf : firstMax fs with
    | none => exact absurd ((firstMax_eq_none_iff fs).mp hf) h
    | some b => exact ⟨b, rfl⟩
  refine ⟨b, ?_, firstMax_le fs b hb, firstMax_first fs b hb⟩
  rw [selectBest, head?_insertionSort, hb]

/-- C2 witness: on tieFmts the selector returns the second element, the
first occurrence of the maximal quality 3. -/
theorem C2_witness :
    (∃ b, selectBest tieFmts = some b ∧
        (∀ x ∈ tieFmts, qualityKey x ≤ qualityKey b) ∧
        ∃ l₁ l₂, tieFmts = l₁ ++ b :: l₂ ∧ ∀ x ∈ l₁, qualityKey x < qualityKey b) ∧
      selectBest tieFmts = some ⟨some "opus", some "none", some 3, "u2"⟩ :=
  ⟨C2_selector_max_first tieFmts (by decide), by decide⟩

/-- C1 counterexample: a format with an audio codec and a missing video
codec field satisfies the spec's audio-only predicate but is discarded by
the code's filter, and a format with a missing audio codec field fails the
spec's predicate but is kept by the code's filter. -/
theorem C1_counterexample :
    audioOnlySpec ⟨some "opus", none, some 1, "u"⟩ = true ∧
    audioFormats [⟨some "opus", none, some 1, "u"⟩] = [] ∧
    audioOnlySpec ⟨none, some "none", some 1, "u"⟩ = false ∧
    audioFormats [⟨none, some "none", some 1, "u"⟩] =
      [⟨none, some "none", some 1, "u"⟩] := by
  refine ⟨rfl, rfl, rfl, rfl⟩

/-- C1 amended: the filter keeps exactly the formats whose audio codec
field differs from the string none (a missing audio codec field passes)
and whose video codec field is present and equal to the string none (a
missing video codec field is discarded). -/
theorem C1_audio_filter (formats : List DeliveryFormat) (f : DeliveryFormat) :
    f ∈ audioFormats formats ↔
      f ∈ formats ∧ f.acodec ≠ some "none" ∧ f.vcodec = some "none" := by
  simp [audioFormats, List.mem_filter, and_assoc]

/-- C3: an entry inserted at time T is treated as absent by the cache check
at any time from T plus the TTL on: the lookup misses and the resolver runs
the full miss body, even though the entry is still physically in the map. -/
theorem C3_expired_entry_is_miss (c : Cache) (vid v : String) (T now : Int)
    (p : ProviderFormats)
    (hlook : List.lookup (cacheKey vid) c = some (v, T))
    (hexp : T + CACHE_TIMEOUT ≤ now) :
    cacheGet c (cacheKey vid) now = none ∧
      fetchStreamUrl c now p vid = resolveMiss c now p vid := by
  have hmiss : cacheGet c (cacheKey vid) now = none := by
    rw [cacheGet, hlook]
    exact if_neg (by omega)
  refine ⟨hmiss, ?_⟩
  rw [fetchStreamUrl, hmiss]

/-- C3 witness: the entry for video id x inserted at time 0 is a miss at
time 30 (minutes), although it is still stored. -/
theorem C3_witness :
    cacheGet cacheDemo (cacheKey "x") 30 = none ∧
      fetchStreamUrl cacheDemo 30 (Except.error ()) "x" =
        resolveMiss cacheDemo 30 (Except.error ()) "x" :=
  C3_expired_entry_is_miss cacheDemo "x" "u" 0 30 (Except.error ()) rfl (by decide)

theorem fetchStreamUrl_eq_hit (c : Cache) (now : Int) (p : ProviderFormats)
    (vid u : String) (hg : cacheGet c (cacheKey vid) now = some u) :
    fetchStreamUrl c now p vid = ⟨Except.ok u, c, 0⟩ := by
  rw [fetchStreamUrl, hg]

theorem fetchStreamUrl_eq_miss (c : Cache) (now : Int) (p : ProviderFormats)
    (vid : String) (hg : cacheGet c (cacheKey vid) now = none) :
    fetchStreamUrl c now p vid = resolveMiss c now p vid := by
  rw [fetchStreamUrl, hg]

theorem resolveMiss_err (c : Cache) (now : Int) (vid : String) (e0 : Unit) :
    resolveMiss c now (Except.error e0) vid = ⟨Except.error 404, c, 1⟩ := rfl

theorem resolveMiss_noFormats (c : Cache) (now : Int) (vid : String) :
    resolveMiss c now (Except.ok none) vid = ⟨Except.error 404, c, 1⟩ := rfl

theorem resolveMiss_formats (c : Cache) (now : Int) (vid : String)
    (fmts : List DeliveryFormat) :
    resolveMiss c now (Except.ok (some fmts)) vid =
      match selectBest (audioFormats fmts) with
      | none => ⟨Except.error 404, c, 1⟩
      | some best => ⟨Except.ok best.url, cachePut c (cacheKey vid) best.url now, 1⟩ :=
  rfl

theorem cacheGet_eq_some (c : Cache) (k : String) (now : Int) (v : String)
    (h : cacheGet c k now = some v) :
    ∃ ts, List.lookup k c = some (v, ts) ∧ now - ts < CACHE_TIMEOUT := by
  rw [cacheGet] at h
  cases hl : List.lookup k c with
  | none =>
    rw [hl] at h
    simp at h
  | some pair =>
    obtain ⟨w, ts⟩ := pair
    rw [hl] at h
    have h' : (if now - ts < CACHE_TIMEOUT then some w else none) = some v := h
    by_cases hf : now - ts < CACHE_TIMEOUT
    · rw [if_pos hf] at h'
      have hw : w = v := by injection h'
      refine ⟨ts, ?_, hf⟩
      rw [hw]
    · rw [if_neg hf] at h'
      simp at h'

/-- C4: whenever fetch_stream_url fails (any error outcome), the cache
after the call is exactly the cache before it. -/
theorem C4_failure_preserves_cache (c : Cache) (now : Int) (p : ProviderFormats)
    (vid : String) (e : Nat)
    (h : (fetchStreamUrl c now p vid).result = Except.error e) :
    (fetchStreamUrl c now p vid).cache = c := by
  cases hg : cacheGet c (cacheKey vid) now with
  | some data =>
    rw [fetchStreamUrl_eq_hit c now p vid data hg] at h
    simp at h
  | none =>
    rw [fetchStreamUrl_eq_miss c now p vid hg] at h ⊢
    cases p with
    | error e0 => rfl
    | ok o =>
      cases o with
      | none => rfl
      | some fmts =>
        rw [resolveMiss_formats] at h ⊢
        cases hs : selectBest (audioFormats fmts) with
        | none => rfl
        | some b =>
          rw [hs] at h
          simp at h

/-- C4 witness: a raising provider call leaves the empty cache empty. -/
theorem C4_witness :
    (fetchStreamUrl [] 0 (Except.error ()) "x").result = Except.error 404 ∧
      (fetchStreamUrl [] 0 (Except.error ()) "x").cache = [] :=
  ⟨rfl, C4_failure_preserves_cache [] 0 (Except.error ()) "x" 404 rfl⟩

theorem fetch_hit (c : Cache) (vid u : String) (ts t2 : Int) (p : ProviderFormats)
    (hl : List.lookup (cacheKey vid) c = some (u, ts))
    (hf : t2 - ts < CACHE_TIMEOUT) :
    fetchStreamUrl c t2 p vid = ⟨Except.ok u, c, 0⟩ := by
  have hg : cacheGet c (cacheKey vid) t2 = some u := by
    rw [cacheGet, hl]
    exact if_pos hf
  rw [fetchStreamUrl, hg]

/-- C5: after any successful resolve, the cache holds the returned URL for
the track's key under some timestamp, and every resolve of the same track
within the TTL window of that entry returns the identical URL, leaves the
cache untouched and makes no provider call. -/
theorem C5_cached_second_resolve (c : Cache) (t1 : Int) (p1 : ProviderFormats)
    (vid u : String) (c1 : Cache) (n : Nat)
    (h : fetchStreamUrl c t1 p1 vid = ⟨Except.ok u, c1, n⟩) :
    ∃ ts : Int, List.lookup (cacheKey vid) c1 = some (u, ts) ∧
      ∀ (t2 : Int) (p2 : ProviderFormats), t2 - ts < CACHE_TIMEOUT →
        fetchStreamUrl c1 t2 p2 vid = ⟨Except.ok u, c1, 0⟩ := by
  cases hg : cacheGet c (cacheKey vid) t1 with
  | some data =>
    rw [fetchStreamUrl_eq_hit c t1 p1 vid data hg] at h
    rw [FetchResult.mk.injEq] at h
    obtain ⟨h1, h2, h3⟩ := h
    obtain rfl : data = u := by injection h1
    obtain ⟨ts, hl, hfresh⟩ := cacheGet_eq_some c (cacheKey vid) t1 data hg
    subst h2
    exact ⟨ts, hl, fun t2 p2 hf => fetch_hit c vid data ts t2 p2 hl hf⟩
  | none =>
    rw [fetchStreamUrl_eq_miss c t1 p1 vid hg] at h
    cases p1 with
    | error e0 =>
      rw [resolveMiss_err] at h
      rw [FetchResult.mk.injEq] at h
      simp at h
    | ok o =>
      cases o with
      | none =>
        rw [resolveMiss_noFormats] at h
        rw [FetchResult.mk.injEq] at h
        simp at h
      | some fmts =>
        rw [resolveMiss_formats] at h
        cases hs : selectBest (audioFormats fmts) with
        | none =>
          rw [hs] at h
          rw [FetchResult.mk.injEq] at h
          simp at h
        | some b =>
          rw [hs] at h
          rw [FetchResult.mk.injEq] at h
          obtain ⟨h1, h2, h3⟩ := h
          obtain rfl : b.url = u := by injection h1
          have hlk : List.lookup (cacheKey vid) c1 = some (b.url, t1) := by
            rw [← h2, cachePut]
            simp [List.lookup]
          exact ⟨t1, hlk, fun t2 p2 hf => fetch_hit c1 vid b.url t1 t2 p2 hlk hf⟩

/-- C5 witness: a concrete successful miss resolve at time 0 caches its URL
at timestamp 0, and any later resolve within the TTL window is a hit with
no provider call. -/
theorem C5_witness :
    ∃ ts : Int, List.lookup (cacheKey "vid") c1Demo = some (fmtDemo.url, ts) ∧
      ∀ (t2 : Int) (p2 : ProviderFormats), t2 - ts < CACHE_TIMEOUT →
        fetchStreamUrl c1Demo t2 p2 "vid" = ⟨Except.ok fmtDemo.url, c1Demo, 0⟩ :=
  C5_cached_second_resolve [] 0 p1Demo "vid" fmtDemo.url c1Demo 1 rfl

/-- C7: on a cache miss, a provider result whose format list has no
audio-only entry yields the not-found outcome 404 with the cache untouched
(the failure is handled, not propagated as an unhandled error). -/
theorem C7_no_audio_not_found (c : Cache) (now : Int) (vid : String)
    (fmts : List DeliveryFormat)
    (hmiss : cacheGet c (cacheKey vid) now = none)
    (hna : audioFormats fmts = []) :
    fetchStreamUrl c now (Except.ok (some fmts)) vid = ⟨Except.error 404, c, 1⟩ := by
  rw [fetchStreamUrl, hmiss, resolveMiss, hna]
  rfl

/-- C7 witness: a single video-only format leads to a 404 outcome. -/
theorem C7_witness :
    fetchStreamUrl [] 0 (Except.ok (some [videoFmtDemo])) "x" =
      ⟨Except.error 404, [], 1⟩ :=
  C7_no_audio_not_found [] 0 "x" [videoFmtDemo] rfl rfl

theorem getArtistSongsLoop_append (oc : String → ListResult) (a b : List String) :
    getArtistSongsLoop oc (a ++ b) =
      getArtistSongsLoop oc a ++ getArtistSongsLoop oc b := by
  induction a with
  | nil => rfl
  | cons u rest ih =>
    simp only [List.cons_append, getArtistSongsLoop]
    cases oc u <;> simp [ih]

/-- C6: a locator whose provider call raises contributes no batch and does
not stop the loop: aggregation over the surrounding locators is unchanged,
and the endpoint returns those batches (no error) whenever they are
non-empty. -/
theorem C6_failure_isolation (oc : String → ListResult) (u1 u2 : List String)
    (bad : String) (h : oc bad = ListResult.err) :
    getArtistSongsLoop oc (u1 ++ bad :: u2) =
        getArtistSongsLoop oc u1 ++ getArtistSongsLoop oc u2 ∧
      (getArtistSongsLoop oc u1 ++ getArtistSongsLoop oc u2 ≠ [] →
        getArtistSongsEndpoint oc (u1 ++ bad :: u2) =
          Except.ok (getArtistSongsLoop oc u1 ++ getArtistSongsLoop oc u2)) := by
  have hsplit : getArtistSongsLoop oc (u1 ++ bad :: u2) =
      getArtistSongsLoop oc u1 ++ getArtistSongsLoop oc u2 := by
    rw [getArtistSongsLoop_append]
    have hb : getArtistSongsLoop oc (bad :: u2) = getArtistSongsLoop oc u2 := by
      rw [getArtistSongsLoop, h]
    rw [hb]
  refine ⟨hsplit, fun hne => ?_⟩
  rw [getArtistSongsEndpoint, hsplit, if_neg hne]

/-- C6 witness: with three sources where the second raises and the others
succeed, the loop yields exactly the two batches of sources one and three,
in order, and the endpoint returns them. -/
theorem C6_witness :
    (getArtistSongsLoop ocDemo (["s1"] ++ "s2" :: ["s3"]) =
        getArtistSongsLoop ocDemo ["s1"] ++ getArtistSongsLoop ocDemo ["s3"] ∧
      (getArtistSongsLoop ocDemo ["s1"] ++ getArtistSongsLoop ocDemo ["s3"] ≠ [] →
        getArtistSongsEndpoint ocDemo (["s1"] ++ "s2" :: ["s3"]) =
          Except.ok (getArtistSongsLoop ocDemo ["s1"] ++
            getArtistSongsLoop ocDemo ["s3"]))) ∧
      (getArtistSongsLoop ocDemo ["s1", "s2", "s3"]).length = 2 ∧
      (getArtistSongsLoop ocDemo ["s1", "s2", "s3"]).map SongResponse.artist_url =
        ["s1", "s3"] :=
  ⟨C6_failure_isolation ocDemo ["s1"] ["s3"] "s2" rfl, rfl, rfl⟩

theorem mem_normalizeEntries (entries : List (Option Entry)) (s : Song)
    (h : s ∈ normalizeEntries entries) :
    ∃ en : Entry, some en ∈ entries ∧ en.id.getD "" ≠ "" ∧
      s = mkSong en (en.id.getD "") := by
  induction entries with
  | nil => simp [normalizeEntries] at h
  | cons e rest ih =>
    cases e with
    | none =>
      rw [normalizeEntries] at h
      obtain ⟨en, hmem, hid, hs⟩ := ih h
      exact ⟨en, List.mem_cons_of_mem _ hmem, hid, hs⟩
    | some en0 =>
      rw [normalizeEntries] at h
      by_cases hid : en0.id.getD "" = ""
      · rw [if_pos hid] at h
        obtain ⟨en, hmem, hid', hs⟩ := ih h
        exact ⟨en, List.mem_cons_of_mem _ hmem, hid', hs⟩
      · rw [if_neg hid] at h
        rcases List.mem_cons.mp h with hs | h'
        · exact ⟨en0, List.mem_cons_self _ _, hid, hs⟩
        · obtain ⟨en, hmem, hid', hs⟩ := ih h'
          exact ⟨en, List.mem_cons_of_mem _ hmem, hid', hs⟩

theorem normalizeEntries_length (entries : List (Option Entry)) :
    (normalizeEntries entries).length = entries.countP isValidEntry := by
  induction entries with
  | nil => rfl
  | cons e rest ih =>
    cases e with
    | none => simp [normalizeEntries, List.countP_cons, isValidEntry, ih]
    | some en0 =>
      by_cases hid : en0.id.getD "" = ""
      · rw [normalizeEntries, if_pos hid]
        simp [List.countP_cons, isValidEntry, hid, ih]
      · rw [normalizeEntries, if_neg hid]
        simp [List.countP_cons, isValidEntry, hid, ih]

/-- C8: for a provider search result, the returned tracks are exactly the
normalizations of the entries that are non-null and carry an id (one track
per such entry), and every returned track's playback URL is the watch-page
prefix followed by that entry's id. -/
theorem C8_search_normalization (entries : List (Option Entry)) (s : Song)
    (h : s ∈ normalizeEntries entries) :
    searchSongs (Except.ok (some entries)) = Except.ok (normalizeEntries entries) ∧
      (normalizeEntries entries).length = entries.countP isValidEntry ∧
      s.url = "https://music.youtube.com/watch?v=" ++ s.video_id ∧
      ∃ en : Entry, some en ∈ entries ∧ en.id.getD "" = s.video_id ∧
        s.video_id ≠ "" := by
  obtain ⟨en, hmem, hid, hs⟩ := mem_normalizeEntries entries s h
  refine ⟨rfl, normalizeEntries_length entries, ?_, en, hmem, ?_, ?_⟩
  · rw [hs]
    rfl
  · rw [hs]
    rfl
  · rw [hs]
    exact hid

/-- C8 witness: three entries, the second without an id, yield exactly two
tracks; the first track is a member with the prefixed watch URL. -/
theorem C8_witness :
    (searchSongs (Except.ok (some demoSearchEntries)) =
        Except.ok (normalizeEntries demoSearchEntries) ∧
      (normalizeEntries demoSearchEntries).length =
        demoSearchEntries.countP isValidEntry ∧
      demoSongA.url = "https://music.youtube.com/watch?v=" ++ demoSongA.video_id ∧
      ∃ en : Entry, some en ∈ demoSearchEntries ∧
        en.id.getD "" = demoSongA.video_id ∧ demoSongA.video_id ≠ "") ∧
      (normalizeEntries demoSearchEntries).length = 2 :=
  ⟨C8_search_normalization demoSearchEntries demoSongA (by decide), by decide⟩

/-- C9: every track produced by the shared entry-normalization loop (used
by both the catalog aggregation endpoint and the search endpoint) comes
from some entry of the input, and its duration string is 0 when that entry
has no duration and the decimal form of the provider duration otherwise. -/
theorem C9_duration_fallback (entries : List (Option Entry)) (s : Song)
    (h : s ∈ normalizeEntries entries) :
    ∃ en : Entry, some en ∈ entries ∧ s = mkSong en (en.id.getD "") ∧
      (en.duration = none → s.duration = "0") ∧
      ∀ d : Int, en.duration = some d → s.duration = toString d := by
  obtain ⟨en, hmem, _, hs⟩ := mem_normalizeEntries entries s h
  refine ⟨en, hmem, hs, ?_, ?_⟩
  · intro hd
    rw [hs]
    simp [mkSong, hd]
  · intro d hd
    rw [hs]
    simp [mkSong, hd]

/-- C9 witness: the third demo entry has no duration and its track's
duration string is 0. -/
theorem C9_witness :
    (∃ en : Entry, some en ∈ demoSearchEntries ∧
        demoSongB = mkSong en (en.id.getD "") ∧
        (en.duration = none → demoSongB.duration = "0") ∧
        ∀ d : Int, en.duration = some d → demoSongB.duration = toString d) ∧
      demoSongB.duration = "0" :=
  ⟨C9_duration_fallback demoSearchEntries demoSongB (by decide), by decide⟩

theorem normalizeEntries_eq_filterMap (entries : List (Option Entry)) :
    normalizeEntries entries = entries.filterMap entryToSong := by
  induction entries with
  | nil => rfl
  | cons e rest ih =>
    cases e with
    | none => simp [normalizeEntries, entryToSong, ih]
    | some en0 =>
      by_cases hid : en0.id.getD "" = ""
      · rw [normalizeEntries, if_pos hid]
        simp [entryToSong, hid, ih]
      · rw [normalizeEntries, if_neg hid]
        simp [entryToSong, hid, ih]

/-- C10: the batches keep the relative order of their locators in the
configured list (the batch urls form an order-preserving sublist), and
each batch's tracks are the order-preserving filterMap of the provider's
entry list for that locator. -/
theorem C10_order_preservation (oc : String → ListResult) (urls : List String) :
    ((getArtistSongsLoop oc urls).map SongResponse.artist_url).Sublist urls ∧
      ∀ r ∈ getArtistSongsLoop oc urls, ∃ ch es, oc r.artist_url = ListResult.ok ch es ∧
        r.songs = (es.getD []).filterMap entryToSong := by
  induction urls with
  | nil =>
    refine ⟨by simp [getArtistSongsLoop], ?_⟩
    intro r hr
    simp [getArtistSongsLoop] at hr
  | cons u rest ih =>
    cases hu : oc u with
    | err =>
      rw [getArtistSongsLoop, hu]
      exact ⟨ih.1.cons u, ih.2⟩
    | empty =>
      rw [getArtistSongsLoop, hu]
      exact ⟨ih.1.cons u, ih.2⟩
    | ok ch es =>
      rw [getArtistSongsLoop, hu]
      constructor
      · simp only [List.map_cons]
        exact List.Sublist.cons₂ u ih.1
      · intro r hr
        rcases List.mem_cons.mp hr with hr0 | hr'
        · subst hr0
          refine ⟨ch, es, hu, ?_⟩
          cases es with
          | none => rfl
          | some l0 => exact normalizeEntries_eq_filterMap l0
        · exact ih.2 r hr'

/-- C10 witness: the concrete three-source outcome keeps locator order and
the batch for source one equals the filterMap of its provider entries. -/
theorem C10_witness :
    ((getArtistSongsLoop ocDemo ["s1", "s2", "s3"]).map
        SongResponse.artist_url).Sublist ["s1", "s2", "s3"] ∧
      ∃ ch es, ocDemo rDemo.artist_url = ListResult.ok ch es ∧
        rDemo.songs = (es.getD []).filterMap entryToSong :=
  ⟨(C10_order_preservation ocDemo ["s1", "s2", "s3"]).1,
   (C10_order_preservation ocDemo ["s1", "s2", "s3"]).2 rDemo (by decide)⟩

end ApiMusic
